import Mathlib

/-!
Verification of the Pyrus MCP core: a shallow embedding of the resilient
HTTP executor (`src/utilities.ts`), the token authenticator and response
caches (`src/pyrus-client.ts`), and the derived list/task operations, with
theorems settling the behavioural claims of the specification.

Time is modelled as milliseconds (`Nat`), asynchronous operations as
functions from the attempt index to an `Except` outcome, and the network
as explicit call counters threaded through each operation.
-/

namespace PyrusMcp

/-- A JavaScript error value as inspected by `HttpClient.isRetryable`:
`code` is the optional Node transport error code (`error.code`) and
`status` the optional HTTP response status (`error.response?.status`,
`none` when there is no `response` object). -/
structure JsError where
  code : Option String
  status : Option Nat
deriving DecidableEq, Repr

/-- `HttpClient.isRetryable` (src/utilities.ts lines 188-200): retry on the
transport codes ECONNRESET and ETIMEDOUT, on HTTP 5xx, and on HTTP 429.
In JavaScript `undefined >= 500` and `undefined === 429` are false, hence
the `none` branch returns `false`. -/
def isRetryable (e : JsError) : Bool :=
  (e.code == some "ECONNRESET" || e.code == some "ETIMEDOUT")
    || (match e.status with
        | some s => decide (500 ≤ s) || (s == 429)
        | none => false)

/-- The backoff delay computed at src/utilities.ts line 174:
`Math.min(1000 * Math.pow(2, attempt), 10000)`. -/
def backoffDelay (attempt : Nat) : Nat :=
  min (1000 * 2 ^ attempt) 10000

/-- `const maxRetries = 3` in `HttpClient.execute`. -/
def maxRetries : Nat := 3

/-- The retry loop of `HttpClient.execute` (src/utilities.ts lines 155-182),
with the current attempt index and the number of attempts still allowed
after this one.  `op n` is the outcome of invoking the operation on
attempt `n`.  Returns the surfaced outcome, the total number of
invocations of the operation, and the list of delays slept. -/
def executeGo {α : Type} (op : Nat → Except JsError α) (attempt : Nat) :
    Nat → Except JsError α × Nat × List Nat
  | 0 =>
    match op attempt with
    | .ok r => (.ok r, attempt + 1, [])
    | .error e => (.error e, attempt + 1, [])
  | remaining + 1 =>
    match op attempt with
    | .ok r => (.ok r, attempt + 1, [])
    | .error e =>
      if isRetryable e then
        let rest := executeGo op (attempt + 1) remaining
        (rest.1, rest.2.1, backoffDelay attempt :: rest.2.2)
      else
        (.error e, attempt + 1, [])

/-- `HttpClient.execute`: run the operation, retrying up to `maxRetries`
times on retryable errors, and surface the last error unchanged. -/
def execute {α : Type} (op : Nat → Except JsError α) :
    Except JsError α × Nat × List Nat :=
  executeGo op 0 maxRetries

/-- Token state of `PyrusClient`: `accessToken` (initially `null`) and
`tokenExpires` (initially `0`), src/pyrus-client.ts lines 26-27. -/
structure AuthState where
  accessToken : Option String
  tokenExpires : Nat
deriving DecidableEq, Repr

/-- The validity check of `ensureAuthenticated` (src/pyrus-client.ts line
73): `this.accessToken && Date.now() < this.tokenExpires`. -/
def tokenValid (st : AuthState) (now : Nat) : Bool :=
  st.accessToken.isSome && decide (now < st.tokenExpires)

/-- `50 * 60 * 1000` ms, the token lifetime used at src/pyrus-client.ts
line 96. -/
def fiftyMinutesMs : Nat := 50 * 60 * 1000

/-- `PyrusClient.authenticate` (src/pyrus-client.ts lines 83-103):
`exchangeResult` is the outcome of the single authentication exchange
(the POST to the auth endpoint as routed through `httpClient.execute`).
On success the token is stored with expiry `now + 50 minutes`; on failure
the error is replaced by the distinguished authentication-failed
condition.  The `Nat` counts authentication exchanges performed. -/
def authenticate (now : Nat) (exchangeResult : Except JsError String) :
    Except String (AuthState × Nat) :=
  match exchangeResult with
  | .ok tok =>
    .ok ({ accessToken := some tok, tokenExpires := now + fiftyMinutesMs }, 1)
  | .error _ => .error "Failed to authenticate with Pyrus API"

/-- `PyrusClient.ensureAuthenticated` (src/pyrus-client.ts lines 72-78):
return at once when the held token is still valid, otherwise perform one
authentication exchange. -/
def ensureAuthenticated (st : AuthState) (now : Nat)
    (exchangeResult : Except JsError String) : Except String (AuthState × Nat) :=
  if tokenValid st now then .ok (st, 0)
  else authenticate now exchangeResult

/-- `PyrusProfile.organization` in src/types.ts. -/
structure PyrusOrganization where
  organization_id : Nat
  name : String
deriving DecidableEq, Repr

/-- `PyrusProfile` (src/types.ts lines 29-41). -/
structure PyrusProfile where
  person_id : Nat
  first_name : String
  last_name : String
  email : String
  locale : String
  timezone_offset : Int
  organization_id : Nat
  organization : PyrusOrganization
deriving DecidableEq, Repr

/-- `PyrusPerson` (src/types.ts lines 44-49). -/
structure PyrusPerson where
  id : Nat
  first_name : String
  last_name : String
  email : String
deriving DecidableEq, Repr

/-- `PyrusComment` (src/types.ts lines 69-75). -/
structure PyrusComment where
  id : Nat
  text : Option String
  create_date : String
  author : PyrusPerson
  action : Option String
deriving DecidableEq, Repr

/-- Placeholder for TypeScript `any` values; their content is never
inspected by the core. -/
inductive JsAny where
  | mk
deriving DecidableEq, Repr

/-- `PyrusField` (src/types.ts lines 157-163); `options?: any[]` is
modelled with the opaque placeholder `JsAny`. -/
structure PyrusField where
  id : Nat
  name : String
  type : String
  parent_id : Option Nat
  options : Option (List JsAny)
deriving DecidableEq, Repr

/-- `PyrusList` (src/types.ts lines 147-155). -/
structure PyrusList where
  id : Nat
  name : String
  header : Option String
  organization_id : Option Nat
  fields : Option (List PyrusField)
  create_date : Option String
  last_modified_date : Option String
deriving DecidableEq, Repr

/-- `PyrusTask` (src/types.ts lines 52-66).  The interface is recursive
(`related_tasks?: PyrusTask[]`), hence an inductive with one constructor
rather than a structure. -/
inductive PyrusTask where
  | mk
    (id : Nat)
    (text : String)
    (create_date : String)
    (last_modified_date : String)
    (due_date : Option String)
    (responsible : Option PyrusPerson)
    (author : PyrusPerson)
    (participants : Option (List PyrusPerson))
    (task_status : String)
    (comments : Option (List PyrusComment))
    (related_tasks : Option (List PyrusTask))
    (list_ids : Option (List Nat))
    (lists : Option (List PyrusList))

/-- Projection of the `comments?` field of a `PyrusTask`. -/
def PyrusTask.comments : PyrusTask → Option (List PyrusComment)
  | .mk _ _ _ _ _ _ _ _ _ cs _ _ _ => cs

/-- Projection of the `related_tasks?` field of a `PyrusTask`. -/
def PyrusTask.related_tasks : PyrusTask → Option (List PyrusTask)
  | .mk _ _ _ _ _ _ _ _ _ _ rt _ _ => rt

/-- The `{ task: PyrusTask }` response payload shared by the task
endpoints (src/types.ts `GetTaskResponse`, `UpdateTaskResponse`). -/
structure TaskResponse where
  task : PyrusTask

/-- The profile cache slot `profileCache: { profile; expires } | null`
(src/pyrus-client.ts line 30). -/
structure ProfileCache where
  profile : PyrusProfile
  expires : Nat
deriving DecidableEq, Repr

/-- `5 * 60 * 1000` ms, the cache lifetime at src/pyrus-client.ts line 166. -/
def fiveMinutesMs : Nat := 5 * 60 * 1000

/-- `PyrusClient.getProfile` (src/pyrus-client.ts lines 152-170):
`fetched` is the value the upstream `GET /profile` would return.  Result:
the profile returned to the caller, the new cache slot, and the number of
upstream fetches issued. -/
def getProfile (cache : Option ProfileCache) (now : Nat)
    (fetched : PyrusProfile) : PyrusProfile × Option ProfileCache × Nat :=
  match cache with
  | some c =>
    if now < c.expires then (c.profile, some c, 0)
    else (fetched, some { profile := fetched, expires := now + fiveMinutesMs }, 1)
  | none => (fetched, some { profile := fetched, expires := now + fiveMinutesMs }, 1)

/-- The list-catalog cache slot, the second instance of the cache pattern
of the spec (the list cache holds the entire catalog as one array). -/
structure ListsCache where
  lists : List PyrusList
  expires : Nat
deriving DecidableEq, Repr

/-- Modelled from the spec: `PyrusClient.getLists` is absent from the
provided client source (only its tests and callers are present).  Per
spec section 4.3 the list catalog is served from a 5-minute single-entry
cache: a cached, unexpired entry is returned without invoking the
fetcher; otherwise the fetched catalog is stored with expiry
`now + 5 minutes` and returned. -/
def getLists (cache : Option ListsCache) (now : Nat)
    (fetched : List PyrusList) : List PyrusList × Option ListsCache × Nat :=
  match cache with
  | some c =>
    if now < c.expires then (c.lists, some c, 0)
    else (fetched, some { lists := fetched, expires := now + fiveMinutesMs }, 1)
  | none => (fetched, some { lists := fetched, expires := now + fiveMinutesMs }, 1)

/-- `startsWith needle hay`: the character list `needle` begins `hay`. -/
def startsWith : List Char → List Char → Bool
  | [], _ => true
  | _ :: _, [] => false
  | a :: as, b :: bs => a == b && startsWith as bs

/-- `containsSub needle hay`: `needle` occurs contiguously in `hay`,
the semantics of JavaScript `String.includes`. -/
def containsSub (needle : List Char) : List Char → Bool
  | [] => needle.isEmpty
  | c :: rest => startsWith needle (c :: rest) || containsSub needle rest

/-- Lowercasing of a character list, the semantics of `toLowerCase`. -/
def charsToLower (s : List Char) : List Char := s.map Char.toLower

/-- Modelled from the spec: the match predicate of `findList` — a
case-insensitive substring match of the search string against a list's
name (`l.name.toLowerCase().includes(search.toLowerCase())`). -/
def nameMatches (search : String) (l : PyrusList) : Bool :=
  containsSub (charsToLower search.data) (charsToLower l.name.data)

/-- Modelled from the spec: `PyrusClient.findList` is absent from the
provided client source (only its tests and callers are present).  Per
spec section 4.4 it performs a case-insensitive substring match over the
`getLists()` result and returns the first match in catalog order, or the
explicit not-found signal (`none`). -/
def findList (search : String) : List PyrusList → Option PyrusList
  | [] => none
  | l :: rest => if nameMatches search l then some l else findList search rest

/-- `MoveTaskRequest` (src/types.ts lines 97-100). -/
structure MoveTaskRequest where
  list_id : Nat
  responsible : Option Nat
deriving DecidableEq, Repr

/-- The request body literal posted by `PyrusClient.moveTask`
(src/pyrus-client.ts lines 140-144): `{ action: 'move', list_id,
responsible }`. -/
structure MoveTaskBody where
  action : String
  list_id : Nat
  responsible : Option Nat
deriving DecidableEq, Repr

/-- HTTP method of an issued request. -/
inductive HttpMethod where
  | get
  | post
deriving DecidableEq, Repr

/-- The endpoint path used by `PyrusClient.updateTask`
(src/pyrus-client.ts line 130): `/tasks/{taskId}/comments`. -/
def updateTaskPath (taskId : Nat) : String :=
  "/tasks/" ++ toString taskId ++ "/comments"

/-- The endpoint path used by `PyrusClient.moveTask`
(src/pyrus-client.ts line 140): `/tasks/{taskId}/comments`. -/
def moveTaskPath (taskId : Nat) : String :=
  "/tasks/" ++ toString taskId ++ "/comments"

/-- The body `moveTask` posts, built from its `MoveTaskRequest` argument. -/
def moveTaskBody (m : MoveTaskRequest) : MoveTaskBody :=
  { action := "move", list_id := m.list_id, responsible := m.responsible }

/-- The single request issued by `PyrusClient.moveTask` for one call:
method, path and body of the one POST of src/pyrus-client.ts line 140. -/
def moveTaskRequests (taskId : Nat) (m : MoveTaskRequest) :
    List (HttpMethod × String × MoveTaskBody) :=
  [(.post, moveTaskPath taskId, moveTaskBody m)]

/-- `moveTask` returns `response.data.task` (src/pyrus-client.ts line 145). -/
def moveTaskResult (resp : TaskResponse) : PyrusTask := resp.task

/-- `updateTask` returns `response.data.task` (src/pyrus-client.ts line 131). -/
def updateTaskResult (resp : TaskResponse) : PyrusTask := resp.task

/-- Modelled from the spec: `PyrusClient.getRelatedTasks` is absent from
the provided client source (only its tests and callers are present).  Per
spec section 4.4 it fetches the task and projects its related-task field,
returning the empty array when the field is absent.  `fetched` is the
`Task` the upstream `GET /tasks/{id}` returned. -/
def getRelatedTasks (fetched : PyrusTask) : List PyrusTask :=
  (fetched.related_tasks).getD []

/-- Modelled from the spec: `PyrusClient.getTaskComments` is absent from
the provided client source (only its tests and callers are present).  Per
spec section 4.4 it fetches the task and projects its comment field,
returning the empty array when the field is absent. -/
def getTaskComments (fetched : PyrusTask) : List PyrusComment :=
  (fetched.comments).getD []

/-- `GetListTasksRequest` (src/types.ts lines 180-189): the optional
filter set of `getListTasks`. -/
structure GetListTasksRequest where
  item_count : Option Nat
  include_archived : Option Bool
  modified_before : Option String
  modified_after : Option String
  created_before : Option String
  created_after : Option String
  due_before : Option String
  due_after : Option String
deriving DecidableEq, Repr

/-- The filter set with no filter supplied. -/
def noFilters : GetListTasksRequest :=
  { item_count := none, include_archived := none, modified_before := none,
    modified_after := none, created_before := none, created_after := none,
    due_before := none, due_after := none }

/-- JavaScript boolean-to-string coercion used in query serialization. -/
def boolToString (b : Bool) : String := if b then "true" else "false"

/-- Modelled from the spec: the query serialization of
`PyrusClient.getListTasks`, absent from the provided client source (only
its tests and callers are present).  Per spec section 6 the query
parameters are `item_count, include_archived, modified_after,
modified_before, created_after, created_before, due_after, due_before`,
in that order; each supplied filter contributes one `key=value` part. -/
def listTasksQueryParts (f : GetListTasksRequest) : List String :=
  (match f.item_count with
   | some n => ["item_count=" ++ toString n]
   | none => [])
  ++ (match f.include_archived with
      | some b => ["include_archived=" ++ boolToString b]
      | none => [])
  ++ (match f.modified_after with
      | some s => ["modified_after=" ++ s]
      | none => [])
  ++ (match f.modified_before with
      | some s => ["modified_before=" ++ s]
      | none => [])
  ++ (match f.created_after with
      | some s => ["created_after=" ++ s]
      | none => [])
  ++ (match f.created_before with
      | some s => ["created_before=" ++ s]
      | none => [])
  ++ (match f.due_after with
      | some s => ["due_after=" ++ s]
      | none => [])
  ++ (match f.due_before with
      | some s => ["due_before=" ++ s]
      | none => [])

/-- Modelled from the spec: the request path of
`PyrusClient.getListTasks(list_id, filters)` — `/lists/{list_id}/tasks`,
with a `?`-prefixed `&`-joined query string exactly when at least one
filter is supplied. -/
def getListTasksPath (listId : Nat) (f : GetListTasksRequest) : String :=
  match listTasksQueryParts f with
  | [] => "/lists/" ++ toString listId ++ "/tasks"
  | ps => "/lists/" ++ toString listId ++ "/tasks?" ++ String.intercalate "&" ps

/-- The number of filters supplied in a `GetListTasksRequest`. -/
def suppliedFilterCount (f : GetListTasksRequest) : Nat :=
  (if f.item_count.isSome then 1 else 0)
  + (if f.include_archived.isSome then 1 else 0)
  + (if f.modified_after.isSome then 1 else 0)
  + (if f.modified_before.isSome then 1 else 0)
  + (if f.created_after.isSome then 1 else 0)
  + (if f.created_before.isSome then 1 else 0)
  + (if f.due_after.isSome then 1 else 0)
  + (if f.due_before.isSome then 1 else 0)

/-- The specification's error classification as the claim states it
(spec section 7): retryable means a transport error — connection reset,
DNS failure (Node codes ENOTFOUND / EAI_AGAIN), or deadline exceeded —
or an HTTP status that is at least 500 or equal to 429.  Stated for
comparison with the source-derived `isRetryable`. -/
def claimRetryable (e : JsError) : Bool :=
  (e.code == some "ECONNRESET" || e.code == some "ENOTFOUND"
      || e.code == some "EAI_AGAIN" || e.code == some "ETIMEDOUT")
    || (match e.status with
        | some s => decide (500 ≤ s) || (s == 429)
        | none => false)

/-- C1: if every invocation fails with a retryable error, the operation is
invoked exactly 4 times (1 initial attempt plus 3 retries) and the last
error is surfaced; if the first invocation fails with a terminal error,
the operation is invoked exactly once and that error is surfaced. -/
theorem execute_attempt_counts {α : Type} (op : Nat → Except JsError α)
    (errs : Nat → JsError) (e : JsError) :
    ((∀ n, op n = .error (errs n)) → (∀ n, isRetryable (errs n) = true) →
      execute op = (.error (errs 3), 4,
        [backoffDelay 0, backoffDelay 1, backoffDelay 2]))
  ∧ (op 0 = .error e → isRetryable e = false →
      execute op = (.error e, 1, [])) := by
  constructor
  · intro hop hr
    show executeGo op 0 (2 + 1) = _
    simp [executeGo, hop 0, hop 1, hop 2, hop 3, hr 0, hr 1, hr 2]
  · intro hop hr
    show executeGo op 0 (2 + 1) = _
    simp [executeGo, hop, hr]

/-- Witness for C1: a run failing with HTTP 503 on every attempt is
invoked 4 times; a run failing with HTTP 404 on the first attempt is
invoked once. -/
theorem execute_attempt_counts_witness :
    execute (fun _ => (Except.error ⟨none, some 503⟩ : Except JsError Unit))
      = (.error ⟨none, some 503⟩, 4, [backoffDelay 0, backoffDelay 1, backoffDelay 2])
  ∧ execute (fun _ => (Except.error ⟨none, some 404⟩ : Except JsError Unit))
      = (.error ⟨none, some 404⟩, 1, []) :=
  ⟨(execute_attempt_counts _ (fun _ => ⟨none, some 503⟩) ⟨none, some 503⟩).1
      (fun _ => rfl) (fun _ => by decide),
   (execute_attempt_counts (fun _ => (Except.error ⟨none, some 404⟩ : Except JsError Unit))
      (fun _ => ⟨none, some 404⟩) ⟨none, some 404⟩).2 rfl (by decide)⟩

/-- C2 counterexample: a DNS failure (Node code ENOTFOUND, no HTTP
response) is retryable under the claim's classification but terminal
under the code's `isRetryable`. -/
theorem isRetryable_dns_counterexample :
    claimRetryable ⟨some "ENOTFOUND", none⟩ = true
  ∧ isRetryable ⟨some "ENOTFOUND", none⟩ = false := by
  constructor <;> rfl

/-- C2 (amended): the executor classifies an error as retryable if and
only if its transport code is ECONNRESET (connection reset) or ETIMEDOUT
(deadline exceeded), or it carries an HTTP response whose status is at
least 500 or equal to 429; DNS failures and every other error are
terminal. -/
theorem isRetryable_iff (e : JsError) :
    isRetryable e = true ↔
      (e.code = some "ECONNRESET" ∨ e.code = some "ETIMEDOUT"
        ∨ ∃ s, e.status = some s ∧ (500 ≤ s ∨ s = 429)) := by
  rcases e with ⟨c, s⟩
  cases s with
  | none => simp [isRetryable]
  | some v => simp [isRetryable, or_assoc]

/-- C4: the backoff delay before retry attempt `n` is
`min(1000 * 2^n, 10000)` ms: 1000, 2000, 4000 for attempts 0, 1, 2, never
above 10000, and exactly 10000 from attempt 4 on. -/
theorem backoffDelay_values :
    backoffDelay 0 = 1000 ∧ backoffDelay 1 = 2000 ∧ backoffDelay 2 = 4000
  ∧ (∀ n, backoffDelay n ≤ 10000)
  ∧ (∀ n, 4 ≤ n → backoffDelay n = 10000) := by
  refine ⟨rfl, rfl, rfl, fun n => min_le_right _ _, fun n hn => ?_⟩
  have h2 : (2 : Nat) ^ 4 ≤ 2 ^ n := Nat.pow_le_pow_right (by decide) hn
  have : 10000 ≤ 1000 * 2 ^ n := by
    calc (10000 : Nat) ≤ 1000 * 2 ^ 4 := by decide
    _ ≤ 1000 * 2 ^ n := Nat.mul_le_mul_left _ h2
  simpa [backoffDelay] using Nat.min_eq_right this

/-- Witness for C4: the cap is reached at attempt 5. -/
theorem backoffDelay_values_witness :
    backoffDelay 5 = 10000 :=
  backoffDelay_values.2.2.2.2 5 (by decide)

/-- C3: with a valid credential, `ensureAuthenticated` returns at once
with zero exchanges and an unchanged credential; otherwise it performs
exactly one authentication exchange and, on success, stores the token
with expiry `now + 50 minutes`.  Afterwards a repeated call at the same
instant is a no-op, so the client never holds two concurrently valid
credentials. -/
theorem ensureAuthenticated_spec (st : AuthState) (now : Nat)
    (ex : Except JsError String) :
    (tokenValid st now = true → ensureAuthenticated st now ex = .ok (st, 0))
  ∧ (tokenValid st now = false → ∀ tok, ex = .ok tok →
      ensureAuthenticated st now ex =
        .ok ({ accessToken := some tok, tokenExpires := now + 50 * 60 * 1000 }, 1))
  ∧ (∀ st' k, ensureAuthenticated st now ex = .ok (st', k) →
      ∀ ex2, ensureAuthenticated st' now ex2 = .ok (st', 0)) := by
  refine ⟨fun hv => ?_, fun hv tok hex => ?_, fun st' k h ex2 => ?_⟩
  · simp [ensureAuthenticated, hv]
  · simp [ensureAuthenticated, hv, authenticate, hex, fiftyMinutesMs]
  · by_cases hv : tokenValid st now = true
    · simp [ensureAuthenticated, hv] at h
      simp [ensureAuthenticated, ← h.1, hv]
    · simp [ensureAuthenticated, hv] at h
      cases ex with
      | error e => simp [authenticate] at h
      | ok tok =>
        simp [authenticate] at h
        have hst : st' = { accessToken := some tok, tokenExpires := now + fiftyMinutesMs } :=
          h.1.symm
        have hvalid : tokenValid st' now = true := by
          subst hst
          simp [tokenValid, fiftyMinutesMs]
        simp [ensureAuthenticated, hvalid]

/-- Witness for C3: a valid token is reused with no exchange; an
unauthenticated state triggers one exchange storing expiry now+50min;
the refreshed state makes an immediate repeat call a no-op. -/
theorem ensureAuthenticated_spec_witness :
    ensureAuthenticated ⟨some "tok", 10⟩ 5 (.ok "new") = .ok (⟨some "tok", 10⟩, 0)
  ∧ ensureAuthenticated ⟨none, 0⟩ 5 (.ok "new")
      = .ok (⟨some "new", 5 + 50 * 60 * 1000⟩, 1)
  ∧ ensureAuthenticated ⟨some "new", 5 + 50 * 60 * 1000⟩ 5 (.error ⟨none, some 500⟩)
      = .ok (⟨some "new", 5 + 50 * 60 * 1000⟩, 0) :=
  ⟨(ensureAuthenticated_spec ⟨some "tok", 10⟩ 5 (.ok "new")).1 (by decide),
   (ensureAuthenticated_spec ⟨none, 0⟩ 5 (.ok "new")).2.1 (by decide) "new" rfl,
   (ensureAuthenticated_spec ⟨none, 0⟩ 5 (.ok "new")).2.2
     ⟨some "new", 5 + 50 * 60 * 1000⟩ 1
     ((ensureAuthenticated_spec ⟨none, 0⟩ 5 (.ok "new")).2.1 (by decide) "new" rfl)
     (.error ⟨none, some 500⟩)⟩

/-- The executor surfaces the error of its final attempt unchanged:
helper for the error-propagation claim, by induction on the remaining
retry budget. -/
theorem executeGo_error_last {α : Type} (op : Nat → Except JsError α)
    (e : JsError) :
    ∀ remaining attempt, (executeGo op attempt remaining).1 = .error e →
      op ((executeGo op attempt remaining).2.1 - 1) = .error e := by
  intro remaining
  induction remaining with
  | zero =>
    intro attempt h
    cases hop : op attempt with
    | ok r => simp [executeGo, hop] at h
    | error e' =>
      simp [executeGo, hop] at h ⊢
      exact h ▸ rfl
  | succ r ih =>
    intro attempt h
    cases hop : op attempt with
    | ok rr => simp [executeGo, hop] at h
    | error e' =>
      by_cases hr : isRetryable e' = true
      · simp [executeGo, hop, hr] at h ⊢
        exact ih (attempt + 1) h
      · simp [executeGo, hop, hr] at h ⊢
        exact h ▸ rfl

/-- C6: once retries are exhausted the executor surfaces the very error
value the operation failed with on its final attempt (no wrapping); the
one exception is the authentication exchange, whose failure is re-raised
as the distinguished authentication-failed condition; and
`ensureAuthenticated` never returns successfully without a credential
valid at the current instant. -/
theorem error_propagation_spec {α : Type} (op : Nat → Except JsError α)
    (e : JsError) (now : Nat) (st : AuthState) (ex : Except JsError String) :
    ((execute op).1 = .error e → op ((execute op).2.1 - 1) = .error e)
  ∧ authenticate now (.error e) = .error "Failed to authenticate with Pyrus API"
  ∧ (∀ st' k, ensureAuthenticated st now ex = .ok (st', k) →
      tokenValid st' now = true) := by
  refine ⟨fun h => executeGo_error_last op e maxRetries 0 h, rfl,
    fun st' k h => ?_⟩
  by_cases hv : tokenValid st now = true
  · simp [ensureAuthenticated, hv] at h
    exact h.1 ▸ hv
  · simp [ensureAuthenticated, hv] at h
    cases ex with
    | error e' => simp [authenticate] at h
    | ok tok =>
      simp [authenticate] at h
      have hst : st' = { accessToken := some tok, tokenExpires := now + fiftyMinutesMs } :=
        h.1.symm
      subst hst
      simp [tokenValid, fiftyMinutesMs]

/-- Witness for C6: a 400 failure is surfaced as the very same value
after one attempt; a failed exchange at time 7 raises the distinguished
condition; a successful `ensureAuthenticated` leaves a valid token. -/
theorem error_propagation_spec_witness :
    (fun _ : Nat => (Except.error ⟨none, some 400⟩ : Except JsError Unit))
      ((execute (fun _ : Nat => (Except.error ⟨none, some 400⟩ : Except JsError Unit))).2.1 - 1)
      = Except.error ⟨none, some 400⟩
  ∧ authenticate 7 (.error ⟨none, some 400⟩)
      = .error "Failed to authenticate with Pyrus API"
  ∧ tokenValid ⟨some "tok", 7 + 50 * 60 * 1000⟩ 7 = true :=
  ⟨(error_propagation_spec (fun _ : Nat => (Except.error ⟨none, some 400⟩ : Except JsError Unit))
      ⟨none, some 400⟩ 7 ⟨none, 0⟩ (.ok "tok")).1 rfl,
   (error_propagation_spec (fun _ : Nat => (Except.error ⟨none, some 400⟩ : Except JsError Unit))
      ⟨none, some 400⟩ 7 ⟨none, 0⟩ (.ok "tok")).2.1,
   (error_propagation_spec (fun _ : Nat => (Except.error ⟨none, some 400⟩ : Except JsError Unit))
      ⟨none, some 400⟩ 7 ⟨none, 0⟩ (.ok "tok")).2.2
     ⟨some "tok", 7 + 50 * 60 * 1000⟩ 1 (by rfl)⟩

/-- C5: a first `getProfile` (resp. `getLists`) call fetches once and
caches with expiry `now + 5 minutes`; a second call before that expiry
returns the cached value with zero fetches; a call at or after the expiry
fetches again and fully replaces the cached entry. -/
theorem cache_hit_miss_spec (now1 now2 : Nat) (p1 p2 : PyrusProfile)
    (l1 l2 : List PyrusList) :
    getProfile none now1 p1 = (p1, some ⟨p1, now1 + 5 * 60 * 1000⟩, 1)
  ∧ (now2 < now1 + 5 * 60 * 1000 →
      getProfile (some ⟨p1, now1 + 5 * 60 * 1000⟩) now2 p2
        = (p1, some ⟨p1, now1 + 5 * 60 * 1000⟩, 0))
  ∧ (now1 + 5 * 60 * 1000 ≤ now2 →
      getProfile (some ⟨p1, now1 + 5 * 60 * 1000⟩) now2 p2
        = (p2, some ⟨p2, now2 + 5 * 60 * 1000⟩, 1))
  ∧ getLists none now1 l1 = (l1, some ⟨l1, now1 + 5 * 60 * 1000⟩, 1)
  ∧ (now2 < now1 + 5 * 60 * 1000 →
      getLists (some ⟨l1, now1 + 5 * 60 * 1000⟩) now2 l2
        = (l1, some ⟨l1, now1 + 5 * 60 * 1000⟩, 0))
  ∧ (now1 + 5 * 60 * 1000 ≤ now2 →
      getLists (some ⟨l1, now1 + 5 * 60 * 1000⟩) now2 l2
        = (l2, some ⟨l2, now2 + 5 * 60 * 1000⟩, 1)) := by
  refine ⟨rfl, fun h => ?_, fun h => ?_, rfl, fun h => ?_, fun h => ?_⟩
  · simp [getProfile, fiveMinutesMs, h]
  · simp [getProfile, fiveMinutesMs, Nat.not_lt.mpr h]
  · simp [getLists, fiveMinutesMs, h]
  · simp [getLists, fiveMinutesMs, Nat.not_lt.mpr h]

/-- A concrete profile used to instantiate the cache claim. -/
def sampleProfile1 : PyrusProfile :=
  { person_id := 1, first_name := "Ada", last_name := "L", email := "a@x.io",
    locale := "en", timezone_offset := 0, organization_id := 9,
    organization := { organization_id := 9, name := "Org" } }

/-- A second concrete profile, distinct from the first. -/
def sampleProfile2 : PyrusProfile :=
  { sampleProfile1 with person_id := 2, first_name := "Grace" }

/-- A minimal concrete list used to instantiate catalog claims. -/
def sampleList (i : Nat) (nm : String) : PyrusList :=
  { id := i, name := nm, header := none, organization_id := none,
    fields := none, create_date := none, last_modified_date := none }

/-- Witness for C5: at times 0 and 100 the second call is served from the
cache; at time 300000 the entry is replaced. -/
theorem cache_hit_miss_spec_witness :
    getProfile none 0 sampleProfile1
      = (sampleProfile1, some ⟨sampleProfile1, 300000⟩, 1)
  ∧ getProfile (some ⟨sampleProfile1, 300000⟩) 100 sampleProfile2
      = (sampleProfile1, some ⟨sampleProfile1, 300000⟩, 0)
  ∧ getProfile (some ⟨sampleProfile1, 300000⟩) 300000 sampleProfile2
      = (sampleProfile2, some ⟨sampleProfile2, 600000⟩, 1)
  ∧ getLists (some ⟨[sampleList 1 "A"], 300000⟩) 100 [sampleList 2 "B"]
      = ([sampleList 1 "A"], some ⟨[sampleList 1 "A"], 300000⟩, 0) := by
  refine ⟨?_, ?_, ?_, ?_⟩
  · have h := (cache_hit_miss_spec 0 100 sampleProfile1 sampleProfile2 [] []).1
    simpa using h
  · have h := (cache_hit_miss_spec 0 100 sampleProfile1 sampleProfile2 [] []).2.1
      (by decide)
    simpa using h
  · have h := (cache_hit_miss_spec 0 300000 sampleProfile1 sampleProfile2 [] []).2.2.1
      (by decide)
    simpa using h
  · have h := (cache_hit_miss_spec 0 100 sampleProfile1 sampleProfile2
      [sampleList 1 "A"] [sampleList 2 "B"]).2.2.2.2.1 (by decide)
    simpa using h

/-- C7: `findList` returns the first list whose name matches the search
string case-insensitively as a substring, in catalog order; it returns
the not-found signal `none` exactly when no list matches (in particular
over the empty catalog); and `findList "task"` over the catalog
`[Task Management, Project Planning]` returns the Task Management
entry. -/
theorem findList_spec (search : String) (catalog : List PyrusList) :
    (findList search catalog = none → ∀ l ∈ catalog, nameMatches search l = false)
  ∧ (∀ l, findList search catalog = some l → nameMatches search l = true ∧
      ∃ pre post, catalog = pre ++ l :: post ∧
        ∀ l' ∈ pre, nameMatches search l' = false)
  ∧ findList search [] = none
  ∧ findList "task" [sampleList 1 "Task Management", sampleList 2 "Project Planning"]
      = some (sampleList 1 "Task Management")
  ∧ findList "zzz" [sampleList 1 "Task Management", sampleList 2 "Project Planning"]
      = none := by
  refine ⟨?_, ?_, rfl, by decide, by decide⟩
  · induction catalog with
    | nil => intro _ l hl; cases hl
    | cons a rest ih =>
      intro h l hl
      by_cases ha : nameMatches search a = true
      · simp [findList, ha] at h
      · simp [findList, ha] at h
        cases hl with
        | head => exact Bool.eq_false_iff.mpr ha
        | tail _ hl => exact ih h l hl
  · induction catalog with
    | nil => intro l h; simp [findList] at h
    | cons a rest ih =>
      intro l h
      by_cases ha : nameMatches search a = true
      · simp [findList, ha] at h
        refine ⟨h ▸ ha, [], rest, by simp [h], by simp⟩
      · simp [findList, ha] at h
        obtain ⟨hm, pre, post, hcat, hpre⟩ := ih l h
        exact ⟨hm, a :: pre, post, by simp [hcat],
          fun l' hl' => by
            cases hl' with
            | head => exact Bool.eq_false_iff.mpr ha
            | tail _ hl' => exact hpre l' hl'⟩

/-- Witness for C7: applying the characterization to the two-element
catalog of the specification's example. -/
theorem findList_spec_witness :
    nameMatches "task" (sampleList 1 "Task Management") = true
  ∧ ∃ pre post,
      [sampleList 2 "Project Planning", sampleList 1 "Task Management"]
        = pre ++ sampleList 1 "Task Management" :: post
      ∧ ∀ l' ∈ pre, nameMatches "task" l' = false :=
  (findList_spec "task"
    [sampleList 2 "Project Planning", sampleList 1 "Task Management"]).2.1
    (sampleList 1 "Task Management") (by decide)

/-- C8: `moveTask` is a specialized `updateTask` — it issues exactly one
POST, to the same `/tasks/{id}/comments` endpoint `updateTask` uses,
whose body carries the target list id and the optional new responsible
(under the `move` action tag), and it returns the updated task from the
response. -/
theorem moveTask_spec (taskId : Nat) (m : MoveTaskRequest) (resp : TaskResponse) :
    (moveTaskRequests taskId m).length = 1
  ∧ moveTaskRequests taskId m = [(.post, moveTaskPath taskId, moveTaskBody m)]
  ∧ moveTaskPath taskId = updateTaskPath taskId
  ∧ (moveTaskBody m).action = "move"
  ∧ (moveTaskBody m).list_id = m.list_id
  ∧ (moveTaskBody m).responsible = m.responsible
  ∧ moveTaskResult resp = resp.task
  ∧ moveTaskResult resp = updateTaskResult resp :=
  ⟨rfl, rfl, rfl, rfl, rfl, rfl, rfl, rfl⟩

/-- A concrete person for instantiating task claims. -/
def samplePerson : PyrusPerson :=
  { id := 1, first_name := "Ada", last_name := "L", email := "a@x.io" }

/-- A concrete task whose optional comment and related-task fields are
the given values. -/
def sampleTask (cs : Option (List PyrusComment))
    (rt : Option (List PyrusTask)) : PyrusTask :=
  .mk 1 "Main Task" "2024-01-01" "2024-01-02" none none samplePerson none
    "new" cs rt none none

/-- C9: `getRelatedTasks` (resp. `getTaskComments`) projects the fetched
task's related-task (resp. comment) field, and returns the empty array —
never an error — when the field is absent. -/
theorem task_projection_spec (t : PyrusTask) :
    (t.related_tasks = none → getRelatedTasks t = [])
  ∧ (∀ ts, t.related_tasks = some ts → getRelatedTasks t = ts)
  ∧ (t.comments = none → getTaskComments t = [])
  ∧ (∀ cs, t.comments = some cs → getTaskComments t = cs) := by
  refine ⟨fun h => ?_, fun ts h => ?_, fun h => ?_, fun cs h => ?_⟩ <;>
    simp [getRelatedTasks, getTaskComments, h]

/-- Witness for C9: a task lacking both optional fields projects to empty
arrays; a task carrying them projects to the carried values. -/
theorem task_projection_spec_witness :
    getRelatedTasks (sampleTask none none) = []
  ∧ getTaskComments (sampleTask none none) = []
  ∧ getRelatedTasks (sampleTask none (some [sampleTask none none]))
      = [sampleTask none none]
  ∧ getTaskComments
      (sampleTask (some [⟨5, some "hi", "2024-01-01", samplePerson, none⟩]) none)
      = [⟨5, some "hi", "2024-01-01", samplePerson, none⟩] :=
  ⟨(task_projection_spec (sampleTask none none)).1 rfl,
   (task_projection_spec (sampleTask none none)).2.2.1 rfl,
   (task_projection_spec (sampleTask none (some [sampleTask none none]))).2.1
     [sampleTask none none] rfl,
   (task_projection_spec
      (sampleTask (some [⟨5, some "hi", "2024-01-01", samplePerson, none⟩]) none)).2.2.2
     [⟨5, some "hi", "2024-01-01", samplePerson, none⟩] rfl⟩

/-- C10: with no filters the request path is exactly `/lists/{id}/tasks`
with no query string; each supplied filter contributes exactly one
`key=value` query parameter; and the parameters appear in the fixed
relative order item_count, include_archived, modified_after,
modified_before, created_after, created_before, due_after, due_before,
as exercised by the repository's two test vectors and the full filter
set. -/
theorem getListTasks_query_spec (listId : Nat) (f : GetListTasksRequest) :
    getListTasksPath listId noFilters = "/lists/" ++ toString listId ++ "/tasks"
  ∧ (listTasksQueryParts f).length = suppliedFilterCount f
  ∧ (listTasksQueryParts f = [] →
      getListTasksPath listId f = "/lists/" ++ toString listId ++ "/tasks")
  ∧ getListTasksPath 1
      { noFilters with
        item_count := some 10,
        include_archived := some true,
        created_after := some "2024-01-01",
        due_before := some "2024-12-31" }
      = "/lists/1/tasks?item_count=10&include_archived=true&created_after=2024-01-01&due_before=2024-12-31"
  ∧ getListTasksPath 1
      { noFilters with
        modified_after := some "2024-01-01",
        modified_before := some "2024-12-31" }
      = "/lists/1/tasks?modified_after=2024-01-01&modified_before=2024-12-31"
  ∧ listTasksQueryParts
      { item_count := some 1,
        include_archived := some false,
        modified_before := some "mb",
        modified_after := some "ma",
        created_before := some "cb",
        created_after := some "ca",
        due_before := some "db",
        due_after := some "da" }
      = ["item_count=1", "include_archived=false", "modified_after=ma",
         "modified_before=mb", "created_after=ca", "created_before=cb",
         "due_after=da", "due_before=db"] := by
  refine ⟨rfl, ?_, fun h => ?_, rfl, rfl, rfl⟩
  · rcases f with ⟨ic, ia, mb, ma, cb, ca, db, da⟩
    cases ic <;> cases ia <;> cases mb <;> cases ma <;> cases cb <;>
      cases ca <;> cases db <;> cases da <;>
      simp [listTasksQueryParts, suppliedFilterCount]
  · simp only [getListTasksPath, h]

/-- Witness for C10: the empty filter set yields the bare path for list 5. -/
theorem getListTasks_query_spec_witness :
    getListTasksPath 5 noFilters = "/lists/" ++ toString 5 ++ "/tasks" :=
  (getListTasks_query_spec 5 noFilters).2.2.1 rfl

end PyrusMcp
